import Mathlib

/-!
Shallow embedding of `DSA/kerneldmd.py` (class `KernelDMD`, a subclass of
kooplearn's `NystroemKernel`) and proofs about its three methods
`compute_hankel`, `fit`/`compute_kernel_dmd` and `predict`.

Conventions of the embedding:
* a scalar is an element of an arbitrary type `α` (instantiated with `ℤ` in
  concrete evaluations); a time sample (one row of dimension N) is a
  `List α`; a 2-D trajectory of shape (T, N) is a `List (List α)`; a 3-D
  batch of shape (K, T, N) is a `List (List (List α))`;
* torch tensors carry the same values as numpy arrays, so `tensor.numpy()`
  is the identity on the carried value and only changes which branch of the
  `isinstance` dispatch fires; the dispatch is modelled by the constructors
  of `TrajInput` / `PredInput`;
* matrices produced by the wrapped library (`U`, `V`, `kernel_YX`) are
  rational matrices `List (List ℚ)`;
* the library calls `NystroemKernel.fit` and `NystroemKernel.predict` are
  not part of this repository; they enter the embedding as function
  parameters (`nysFit`, `P`) of the methods that invoke them;
* Python exceptions are modelled with `Option`/`Except`.
-/

namespace DSA

universe u v w

/-- kooplearn's sliding-window context at start index `i`:
`context[j] = traj[i + j * time_lag]` for `j < context_window_len`.
All indices used are in range whenever `i < traj.length - (cwl - 1) * tl`,
so the `getD` default is never read there. -/
def tcontext {α : Type u} [Inhabited α] (traj : List α) (cwl tl i : Nat) : List α :=
  (List.range cwl).map (fun j => traj.getD (i + j * tl) default)

/-- kooplearn's `traj_to_contexts(trajectory, context_window_len, time_lag)`:
the array of all sliding windows, of shape
`(T - (cwl - 1) * tl, cwl, N)`.  The library raises a `ValueError` exactly
when `T < 1 + (cwl - 1) * tl` (or `cwl < 2` or `tl < 1`), i.e. exactly when
this list is empty or the arguments are outside `validTrajs` below; theorems
that depend on the library not raising carry that hypothesis. -/
def traj_to_contexts {α : Type u} [Inhabited α] (traj : List α) (cwl tl : Nat) :
    List (List α) :=
  (List.range (traj.length - (cwl - 1) * tl)).map (tcontext traj cwl tl)

/-- The domain on which kooplearn's `traj_to_contexts` is defined for every
trajectory of the batch: `context_window_len ≥ 2`, `time_lag ≥ 1`, and every
trajectory long enough to hold one full window. -/
abbrev validTrajs {α : Type u} (cwl tl : Nat) (ts : List (List (List α))) : Prop :=
  2 ≤ cwl ∧ 1 ≤ tl ∧ ∀ t ∈ ts, 1 + (cwl - 1) * tl ≤ t.length

/-- The input forms accepted by `compute_hankel` (lines 76-80): a torch
tensor (2-D or 3-D), a numpy array (2-D of shape (T, N) or 3-D of shape
(K, T, N)), or a python list of 2-D trajectories. -/
inductive TrajInput (α : Type u) where
  | tensor2 (t : List (List α))
  | tensor3 (t : List (List (List α)))
  | nd2 (t : List (List α))
  | nd3 (t : List (List (List α)))
  | trajList (ts : List (List (List α)))
deriving DecidableEq

/-- Line 76-78: `if isinstance(trajs, torch.Tensor): trajs = trajs.numpy()`.
The conversion is the identity on the carried value. -/
def TrajInput.toNumpy {α : Type u} : TrajInput α → TrajInput α
  | .tensor2 t => .nd2 t
  | .tensor3 t => .nd3 t
  | x => x

/-- Lines 76-80 of `compute_hankel`: tensors become numpy arrays, and a 2-D
array becomes a one-trajectory batch via `trajs[np.newaxis,:,:]`; a 3-D
array or a python list is already indexed trajectory by trajectory. -/
def asTrajList {α : Type u} : TrajInput α → List (List (List α))
  | .tensor2 t => [t]
  | .tensor3 t => t
  | .nd2 t => [t]
  | .nd3 t => t
  | .trajList ts => ts

/-- Lines 82-97: `data = traj_to_contexts(trajs[0], ...)` followed by the
loop `for i in range(1, len(trajs)):` concatenating
`traj_to_contexts(trajs[i], ...).data` onto `data.data` along axis 0.
`trajs[0]` on an empty batch raises `IndexError`, hence `none`. -/
def hankelLoop {α : Type u} [Inhabited α] (cwl tl : Nat) :
    List (List (List α)) → Option (List (List (List α)))
  | [] => none
  | t0 :: rest =>
    some (rest.foldl (fun acc t => acc ++ traj_to_contexts t cwl tl)
      (traj_to_contexts t0 cwl tl))

/-- The data array held by `self.data` after `compute_hankel(trajs)`
(lines 62-97), as a function of the raw input. -/
def compute_hankelFn {α : Type u} [Inhabited α] (cwl tl : Nat) (input : TrajInput α) :
    Option (List (List (List α))) :=
  hankelLoop cwl tl (asTrajList input)

/-- Rational matrices, the carrier of the fitted quantities `U`, `V`,
`kernel_YX`, `A_v` produced by the wrapped library. -/
abbrev Mat := List (List ℚ)

/-- Value of the `self.data` attribute: the raw input stored by `__init__`,
or the context dataset stored by `compute_hankel`. -/
inductive HankelData (α : Type u) where
  | raw (d : TrajInput α)
  | ctxs (c : List (List (List α)))
deriving DecidableEq

/-- The attributes of a `KernelDMD` object that the modelled methods read or
write.  `kernel`, `reduced_rank_reg`, `rank`, `svd_solver`, `num_centers`
and `verbose` are only forwarded to the library superclass or printed and
are not modelled. -/
structure KState (α : Type u) where
  n_delays : Nat
  context_window_len : Nat
  delay_interval : Nat
  lamb : ℚ
  data : HankelData α
  tikhonov_reg : Option ℚ
  U : Mat
  V : Mat
  kernel_YX : Mat
  A_v : Mat
deriving DecidableEq

/-- `__init__` (lines 8-33): stores `context_window_len = n_delays + 1`,
`delay_interval`, `lamb = 0 if lamb is None else lamb`, and the raw data.
The superclass stores the raw `lamb` argument as `tikhonov_reg`.  The
fitted matrices do not exist before `fit`; they are initialised empty. -/
def initKernelDMD {α : Type u} (data : TrajInput α) (n_delays delay_interval : Nat)
    (lamb : Option ℚ) : KState α :=
  { n_delays := n_delays
    context_window_len := n_delays + 1
    delay_interval := delay_interval
    lamb := match lamb with | none => 0 | some l => l
    data := HankelData.raw data
    tikhonov_reg := lamb
    U := []
    V := []
    kernel_YX := []
    A_v := [] }

/-- Method `compute_hankel` as a state transformer: on success it stores the
context dataset into `self.data` (line 97) and changes nothing else. -/
def compute_hankel {α : Type u} [Inhabited α] (st : KState α) (trajs : TrajInput α) :
    Option (KState α) :=
  (compute_hankelFn st.context_window_len st.delay_interval trajs).map
    (fun c => { st with data := HankelData.ctxs c })

/-- Dot product of two rational vectors. -/
def dotProd (xs ys : List ℚ) : ℚ :=
  (List.zipWith (fun a b => a * b) xs ys).sum

/-- Matrix product `A @ B` (rows of `A` against columns of `B`). -/
def matMul (A B : Mat) : Mat :=
  A.map (fun r => B.transpose.map (fun c => dotProd r c))

/-- Elementwise division of a matrix by a scalar. -/
def matScalarDiv (A : Mat) (c : ℚ) : Mat :=
  A.map (fun r => r.map (fun x => x / c))

/-- Method `compute_kernel_dmd` (lines 102-115): sets
`self.tikhonov_reg = self.lamb if lamb is None else lamb`, calls the
inherited `NystroemKernel.fit` on `self.data` (which sets `U`, `V` and
`kernel_YX`; the library call is the parameter `nysFit`), then computes
`self.A_v = self.V.T @ self.kernel_YX @ self.U / len(self.kernel_YX)`.
If `self.data` still holds raw input rather than a context dataset the
library call is outside the modelled domain, hence `none`. -/
def compute_kernel_dmd {α : Type u}
    (nysFit : List (List (List α)) → Mat × Mat × Mat)
    (st : KState α) (lamb : Option ℚ) : Option (KState α) :=
  let st1 : KState α :=
    { st with tikhonov_reg := some (match lamb with | none => st.lamb | some l => l) }
  match st1.data with
  | HankelData.raw _ => none
  | HankelData.ctxs c =>
    let r := nysFit c
    let st2 : KState α := { st1 with U := r.1, V := r.2.1, kernel_YX := r.2.2 }
    some { st2 with
      A_v := matScalarDiv (matMul (matMul st2.V.transpose st2.kernel_YX) st2.U)
        (st2.kernel_YX.length : ℚ) }

/-- Method `fit` (lines 35-60): resolves `data` to `self.data` when the
argument is `None` (only the raw-data case is in the modelled domain),
resolves `lamb` to `self.lamb` when `None`, then runs `compute_hankel`
followed by `compute_kernel_dmd`. -/
def fit {α : Type u} [Inhabited α] (nysFit : List (List (List α)) → Mat × Mat × Mat)
    (st : KState α) (dataArg : Option (TrajInput α)) (lambArg : Option ℚ) :
    Option (KState α) :=
  let lamb : ℚ := match lambArg with | none => st.lamb | some l => l
  let dataRes : Option (TrajInput α) :=
    match dataArg with
    | some d => some d
    | none => match st.data with
      | HankelData.raw d => some d
      | HankelData.ctxs _ => none
  match dataRes with
  | none => none
  | some d =>
    (compute_hankel st d).bind (fun st1 => compute_kernel_dmd nysFit st1 (some lamb))

/-- The input forms accepted by `predict` (lines 139-146): torch tensors
(converted to numpy), numpy arrays, or a python list of 2-D trajectories
(converted with `np.array`, giving a 3-D array). -/
inductive PredInput (α : Type u) where
  | tensor2 (t : List (List α))
  | tensor3 (t : List (List (List α)))
  | nd2 (t : List (List α))
  | nd3 (t : List (List (List α)))
  | pyList (ts : List (List (List α)))
deriving DecidableEq

/-- Lines 139-146 of `predict`: tensor to numpy, list to `np.array`, and a
2-D `test_data` gets a leading trial axis via `test_data[np.newaxis,:,:]`. -/
def asTestArray {α : Type u} : PredInput α → List (List (List α))
  | .tensor2 t => [t]
  | .tensor3 t => t
  | .nd2 t => [t]
  | .nd3 t => t
  | .pyList ts => ts

/-- The exceptions `predict` can raise: `NotImplementedError` (line 137),
`ValueError` from `np.reshape` at line 155, `IndexError` from `trajs[0]`
inside `compute_hankel` on an empty batch. -/
inductive PredErr where
  | notImplemented
  | valueError
  | indexError
deriving DecidableEq

/-- `xs` cut into `K` consecutive chunks of `m` elements each (the row
blocks of `pred.reshape(K, m, N)`). -/
def chunkInto {α : Type u} (K m : Nat) (xs : List α) : List (List α) :=
  (List.range K).map (fun k => (xs.drop (k * m)).take m)

/-- A numpy value of rank 0 to 3, the possible results of
`pred_data.squeeze()`. -/
inductive ND (α : Type u) where
  | scalar (a : α)
  | arr (xs : List (ND α))

/-- A 3-D nested list as a rank-3 numpy value. -/
def toND3 {α : Type u} (a : List (List (List α))) : ND α :=
  ND.arr (a.map (fun m => ND.arr (m.map (fun r => ND.arr (r.map ND.scalar)))))

/-- `np.squeeze` of a 1-D array: a single-element axis is dropped. -/
def squeeze1 {α : Type u} : List α → ND α
  | [x] => ND.scalar x
  | r => ND.arr (r.map ND.scalar)

/-- `np.squeeze` of a 2-D array: each axis of length 1 is dropped. -/
def squeeze2 {α : Type u} : List (List α) → ND α
  | [r] => squeeze1 r
  | m => ND.arr (m.map squeeze1)

/-- `np.squeeze` of a 3-D array (line 158, `pred_data.squeeze()`): each
axis of length 1 is dropped. -/
def squeeze3 {α : Type u} : List (List (List α)) → ND α
  | [m] => squeeze2 m
  | a => ND.arr (a.map squeeze2)

/-- The shape of a (regular) `ND` value, read along first components. -/
def ndShape {α : Type u} : ND α → List Nat
  | ND.scalar _ => []
  | ND.arr [] => [0]
  | ND.arr (x :: xs) => (x :: xs).length :: ndShape x

/-- Lines 148-158 of `predict`, on the already normalised 3-D test array
and with the resolved `reseed` (which the live code never reads), before
the final `squeeze`.  `P` abstracts the inherited `NystroemKernel.predict`,
which returns one predicted row of dimension N per context.
Steps: `pred_data = np.zeros(test_data.shape)`;
`pred_data[:, 0:n_delays] = test_data[:, 0:n_delays]`;
`self.compute_hankel(test_data)` (stores the test contexts in `self.data`);
`pred = super().predict(self.data)`;
`pred = pred.reshape(K, T - n_delays, N)` — this raises `ValueError`
unless the number of predicted rows is `K * (T - n_delays)` and
`T - n_delays` is non-negative; `pred_data[:, n_delays:] = pred`. -/
def predictRaw {α : Type u} [Inhabited α]
    (P : List (List (List α)) → List (List α)) (st : KState α)
    (testArr : List (List (List α))) (reseed : Nat) :
    KState α × Except PredErr (List (List (List α))) :=
  let K := testArr.length
  let T := (testArr.headD []).length
  match compute_hankelFn st.context_window_len st.delay_interval
      (TrajInput.nd3 testArr) with
  | none => (st, Except.error PredErr.indexError)
  | some c =>
    let st1 : KState α := { st with data := HankelData.ctxs c }
    let predFlat := P c
    (st1,
      if st.n_delays ≤ T ∧ predFlat.length = K * (T - st.n_delays) then
        Except.ok (List.zipWith
          (fun traj ch => traj.take st.n_delays ++ ch) testArr
          (chunkInto K (T - st.n_delays) predFlat))
      else Except.error PredErr.valueError)

/-- The body of `predict` after the `reseed` resolution: `predictRaw`
followed by `return pred_data.squeeze()` (line 158). -/
def predictBody {α : Type u} [Inhabited α]
    (P : List (List (List α)) → List (List α)) (st : KState α)
    (testArr : List (List (List α))) (reseed : Nat) :
    KState α × Except PredErr (ND α) :=
  let r := predictRaw P st testArr reseed
  (r.1, r.2.map (fun a => squeeze3 a))

/-- Method `predict` (lines 117-158): lines 134-137 resolve `reseed` —
`None` becomes `1`, anything else raises `NotImplementedError` before any
prediction is computed; then the input is normalised (lines 139-146) and
the body runs. -/
def predict {α : Type u} [Inhabited α]
    (P : List (List (List α)) → List (List α)) (st : KState α)
    (testData : PredInput α) (reseed : Option Nat) :
    KState α × Except PredErr (ND α) :=
  match reseed with
  | some _ => (st, Except.error PredErr.notImplemented)
  | none => predictBody P st (asTestArray testData) 1

/-- Modelled from the spec: the source only sketches an autoregressive
rollout in commented-out code (lines 168-176), so the behaviour claimed by
the spec — predictions produced by repeatedly applying the learned operator
to the model's own previously generated predictions — is modelled here from
the spec's words, to be compared with `predictRaw`.  The first `n_delays`
entries are seeded from the test trajectory; every later entry applies the
operator `P1` to the window of the `context_window_len = n_delays + 1` most
recent previous predictions. -/
def rolloutSpec {α : Type u} [Inhabited α] (P1 : List (List α) → List α)
    (nd : Nat) (traj : List (List α)) : Nat → List (List α)
  | 0 => []
  | t + 1 =>
    let prev := rolloutSpec P1 nd traj t
    prev ++ [if t < nd then traj.getD t default
             else P1 (prev.drop (prev.length - (nd + 1)))]

/-- Modelled from the spec: the rollout of `rolloutSpec` over a whole batch
of test trajectories, each for its own length. -/
def rolloutSpecBatch {α : Type u} [Inhabited α] (P1 : List (List α) → List α)
    (nd : Nat) (testArr : List (List (List α))) : List (List (List α)) :=
  testArr.map (fun traj => rolloutSpec P1 nd traj traj.length)

instance {ε : Type u} {β : Type v} [DecidableEq ε] [DecidableEq β] :
    DecidableEq (Except ε β) := fun x y =>
  match x, y with
  | Except.ok a, Except.ok b =>
    if h : a = b then isTrue (by rw [h]) else isFalse (by simp [h])
  | Except.error a, Except.error b =>
    if h : a = b then isTrue (by rw [h]) else isFalse (by simp [h])
  | Except.ok _, Except.error _ => isFalse (by simp)
  | Except.error _, Except.ok _ => isFalse (by simp)

/-! ## Helper lemmas -/

theorem foldl_append_flatten {β : Type u} {γ : Type v} (f : β → List γ)
    (l : List β) (acc : List γ) :
    List.foldl (fun a t => a ++ f t) acc l = acc ++ (l.map f).flatten := by
  induction l generalizing acc with
  | nil => simp
  | cons x xs ih => simp [ih, List.append_assoc]

theorem hankelLoop_eq_flatten {α : Type u} [Inhabited α] (cwl tl : Nat)
    (ts : List (List (List α))) (h : ts ≠ []) :
    hankelLoop cwl tl ts
      = some ((ts.map (fun t => traj_to_contexts t cwl tl)).flatten) := by
  match ts, h with
  | t0 :: rest, _ =>
    simp only [hankelLoop, foldl_append_flatten, List.map_cons, List.flatten_cons]

/-! ## Claim theorems -/

/-- C1: for every accepted input form (torch tensor, 2-D array, 3-D array,
or list of trajectories), `compute_hankel` stores into `self.data` the
concatenation along axis 0, in input order, of
`traj_to_contexts(traj_i, context_window_len = n_delays + 1,
time_lag = delay_interval)` over the trajectories of the input, a 2-D input
being one single trajectory and tensors being converted to numpy first. -/
theorem C1_compute_hankel_concat {α : Type u} [Inhabited α]
    (raw0 : TrajInput α) (nd di : Nat) (lamb : Option ℚ) (input : TrajInput α)
    (hne : asTrajList input ≠ [])
    (hv : validTrajs (nd + 1) di (asTrajList input)) :
    compute_hankel (initKernelDMD raw0 nd di lamb) input
      = some { initKernelDMD raw0 nd di lamb with
          data := HankelData.ctxs
            (((asTrajList input).map
              (fun t => traj_to_contexts t (nd + 1) di)).flatten) } := by
  unfold compute_hankel compute_hankelFn
  rw [show (initKernelDMD raw0 nd di lamb).context_window_len = nd + 1 from rfl,
      show (initKernelDMD raw0 nd di lamb).delay_interval = di from rfl,
      hankelLoop_eq_flatten _ _ _ hne]
  rfl

/-- Witness for C1: a concrete two-trajectory batch with
`n_delays = 1`, `delay_interval = 1`. -/
theorem C1_compute_hankel_concat_witness :
    ∃ st : KState ℤ,
      compute_hankel (initKernelDMD (TrajInput.nd2 []) 1 1 none)
        (TrajInput.trajList [[[0], [1], [2]], [[5], [6], [7]]]) = some st :=
  ⟨_, C1_compute_hankel_concat (TrajInput.nd2 []) 1 1 none
    (TrajInput.trajList [[[0], [1], [2]], [[5], [6], [7]]])
    (by decide) (by decide)⟩

/-- C4: calling `predict` with a non-`None` `reseed` raises
`NotImplementedError` before any prediction is computed (the state is
untouched and no other code runs); with `reseed` left as `None` the body
runs with `reseed` resolved to `1`. -/
theorem C4_reseed_raises {α : Type u} [Inhabited α]
    (P : List (List (List α)) → List (List α)) (st : KState α)
    (td : PredInput α) (r : Nat) :
    predict P st td (some r) = (st, Except.error PredErr.notImplemented)
    ∧ predict P st td none = predictBody P st (asTestArray td) 1 :=
  ⟨rfl, rfl⟩

/-- C5: the only input handling of `compute_hankel` and `predict` is shape
normalization and it is behavior-preserving: a torch tensor gives the same
result as its numpy conversion, a 2-D array the same result as the 3-D
array with a leading unit axis, and in general the result of each method is
a function of the normalised trajectory batch alone. -/
theorem C5_normalization_preserves {α : Type u} [Inhabited α] :
    (∀ (st : KState α) (input : TrajInput α),
        compute_hankel st input.toNumpy = compute_hankel st input)
    ∧ (∀ (st : KState α) (x : List (List α)),
        compute_hankel st (TrajInput.nd3 [x]) = compute_hankel st (TrajInput.nd2 x))
    ∧ (∀ (st : KState α) (i j : TrajInput α), asTrajList i = asTrajList j →
        compute_hankel st i = compute_hankel st j)
    ∧ (∀ (P : List (List (List α)) → List (List α)) (st : KState α)
        (r : Option Nat) (x : List (List α)),
        predict P st (PredInput.tensor2 x) r = predict P st (PredInput.nd2 x) r)
    ∧ (∀ (P : List (List (List α)) → List (List α)) (st : KState α)
        (r : Option Nat) (t : List (List (List α))),
        predict P st (PredInput.tensor3 t) r = predict P st (PredInput.nd3 t) r)
    ∧ (∀ (P : List (List (List α)) → List (List α)) (st : KState α)
        (r : Option Nat) (ts : List (List (List α))),
        predict P st (PredInput.pyList ts) r = predict P st (PredInput.nd3 ts) r)
    ∧ (∀ (P : List (List (List α)) → List (List α)) (st : KState α)
        (r : Option Nat) (x : List (List α)),
        predict P st (PredInput.nd3 [x]) r = predict P st (PredInput.nd2 x) r)
    ∧ (∀ (P : List (List (List α)) → List (List α)) (st : KState α)
        (r : Option Nat) (i j : PredInput α), asTestArray i = asTestArray j →
        predict P st i r = predict P st j r) := by
  refine ⟨?_, ?_, ?_, ?_, ?_, ?_, ?_, ?_⟩
  · intro st input; cases input <;> rfl
  · intro st x; rfl
  · intro st i j h
    unfold compute_hankel compute_hankelFn
    rw [h]
  · intro P st r x; rfl
  · intro P st r t; rfl
  · intro P st r ts; rfl
  · intro P st r x; rfl
  · intro P st r i j h
    cases r with
    | some n => rfl
    | none =>
      show predictBody P st (asTestArray i) 1 = predictBody P st (asTestArray j) 1
      rw [h]

/-- Witness for C5: the congruence conjunct applied to a tensor and its
numpy conversion, which share the same normalised batch. -/
theorem C5_normalization_preserves_witness :
    compute_hankel (initKernelDMD (TrajInput.nd2 ([] : List (List ℤ))) 1 1 none)
        (TrajInput.tensor2 [[0], [1], [2]])
      = compute_hankel (initKernelDMD (TrajInput.nd2 ([] : List (List ℤ))) 1 1 none)
        (TrajInput.nd2 [[0], [1], [2]]) :=
  (C5_normalization_preserves.2.2.1)
    (initKernelDMD (TrajInput.nd2 ([] : List (List ℤ))) 1 1 none)
    (TrajInput.tensor2 [[0], [1], [2]]) (TrajInput.nd2 [[0], [1], [2]]) rfl

/-- C6: every context window of the Hankel data built by `compute_hankel`
is a window of exactly one input trajectory — the delay embedding is built
per trajectory and the per-trajectory results are concatenated, so no
window spans the boundary between two trajectories, and every sample of a
window is a sample of that one trajectory. -/
theorem C6_windows_from_one_trajectory {α : Type u} [Inhabited α]
    (cwl tl : Nat) (input : TrajInput α) (res : List (List (List α)))
    (w : List (List α))
    (hv : validTrajs cwl tl (asTrajList input))
    (hres : compute_hankelFn cwl tl input = some res) (hw : w ∈ res) :
    ∃ tr ∈ asTrajList input,
      w ∈ traj_to_contexts tr cwl tl ∧ ∀ x ∈ w, x ∈ tr := by
  have hne : asTrajList input ≠ [] := by
    intro h
    rw [compute_hankelFn, h] at hres
    exact Option.noConfusion hres
  rw [compute_hankelFn, hankelLoop_eq_flatten _ _ _ hne] at hres
  obtain rfl : res = _ := (Option.some.inj hres).symm
  obtain ⟨ws, hws, hwin⟩ := List.mem_flatten.mp hw
  obtain ⟨tr, htr, rfl⟩ := List.mem_map.mp hws
  refine ⟨tr, htr, hwin, ?_⟩
  intro x hx
  obtain ⟨i, hi, rfl⟩ := List.mem_map.mp hwin
  obtain ⟨j, hj, rfl⟩ := List.mem_map.mp hx
  have hiL := List.mem_range.mp hi
  have hjc := List.mem_range.mp hj
  have hL : 1 + (cwl - 1) * tl ≤ tr.length := hv.2.2 tr htr
  have hj1 : j ≤ cwl - 1 := by omega
  have hjtl : j * tl ≤ (cwl - 1) * tl := Nat.mul_le_mul_right tl hj1
  have h2 : i + j * tl ≤ i + (cwl - 1) * tl := Nat.add_le_add_left hjtl i
  have hrange : i + j * tl < tr.length := by omega
  rw [List.getD_eq_getElem tr default hrange]
  exact List.getElem_mem hrange

/-- Witness for C6: a window of the Hankel data of a concrete
two-trajectory batch lies inside one of the two trajectories. -/
theorem C6_windows_from_one_trajectory_witness :
    ∃ tr ∈ asTrajList (TrajInput.trajList [[[0], [1], [2]], [[5], [6], [7]]]),
      [[(5 : ℤ)], [6]] ∈ traj_to_contexts tr 2 1
      ∧ ∀ x ∈ [[(5 : ℤ)], [6]], x ∈ tr :=
  C6_windows_from_one_trajectory 2 1
    (TrajInput.trajList [[[0], [1], [2]], [[5], [6], [7]]]) _ [[(5 : ℤ)], [6]]
    (by decide) rfl (by decide)

/-- C2 counterexample: `predict` does not roll out predictions by feeding
its own previous predictions back into the learned operator.  With
`n_delays = 1`, `delay_interval = 1`, the operator sending a context window
to its first sample plus one, and the test trajectory `[[0], [1], [5]]`,
the code returns `[[0], [1], [2]]`: the prediction at time 2 is computed
from the test-data window `([1], [5])`.  The rollout described by the
claim would instead feed back the prediction `[1]` for time 1 and return
`[[0], [1], [1]]`. -/
theorem C2_rollout_counterexample :
    (predictRaw (fun cs => cs.map (fun w => [(w.headD []).getD 0 0 + 1]))
        (initKernelDMD (TrajInput.nd2 ([] : List (List ℤ))) 1 1 none)
        [[[0], [1], [5]]] 1).2
      ≠ Except.ok (rolloutSpecBatch (fun w => [(w.headD []).getD 0 0 + 1]) 1
          [[[0], [1], [5]]]) := by decide

/-- C2 amended: `predict` applies the learned operator once, in a single
batch, to the delay-embedded windows of the test data itself; with
`delay_interval = 1` and one test trajectory the returned predictions are
the first `n_delays` test samples followed by the operator applied to each
test-data window.  Previously generated predictions are never fed back. -/
theorem C2_single_batch_application {α : Type u} [Inhabited α]
    (P1 : List (List α) → List α) (raw0 : TrajInput α) (nd : Nat)
    (lamb : Option ℚ) (traj : List (List α))
    (hT : nd + 1 ≤ traj.length) :
    (predictRaw (fun cs => cs.map P1) (initKernelDMD raw0 nd 1 lamb)
        [traj] 1).2
      = Except.ok [traj.take nd
          ++ (List.range (traj.length - nd)).map
              (fun j => P1 (tcontext traj (nd + 1) 1 j))] := by
  have e1 : (initKernelDMD raw0 nd 1 lamb : KState α).context_window_len
      = nd + 1 := rfl
  have e2 : (initKernelDMD raw0 nd 1 lamb : KState α).delay_interval = 1 := rfl
  have e3 : (initKernelDMD raw0 nd 1 lamb : KState α).n_delays = nd := rfl
  have hctxs : traj_to_contexts traj (nd + 1) 1
      = (List.range (traj.length - nd)).map (tcontext traj (nd + 1) 1) := by
    simp [traj_to_contexts]
  have hlen : ((traj_to_contexts traj (nd + 1) 1).map P1).length
      = traj.length - nd := by
    simp [traj_to_contexts]
  simp only [predictRaw, e1, e2, e3, compute_hankelFn, asTrajList, hankelLoop,
    List.foldl_nil, List.headD_cons, List.length_cons, List.length_nil,
    Nat.zero_add]
  rw [if_pos]
  · have hchunk : chunkInto 1 (traj.length - nd)
        ((traj_to_contexts traj (nd + 1) 1).map P1)
        = [(traj_to_contexts traj (nd + 1) 1).map P1] := by
      have hr1 : List.range 1 = [0] := rfl
      simp [chunkInto, hr1, List.take_of_length_le (le_of_eq hlen)]
    rw [hchunk]
    simp [hctxs, List.map_map, Function.comp]
  · constructor
    · omega
    · rw [hlen]; omega

/-- Witness for the amended C2: a concrete run with `n_delays = 1`. -/
theorem C2_single_batch_application_witness :
    ∃ out,
      (predictRaw
          (fun cs => cs.map (fun w : List (List ℤ) => [(w.headD []).getD 0 0 + 1]))
          (initKernelDMD (TrajInput.nd2 ([] : List (List ℤ))) 1 1 none)
          [[[0], [1], [5]]] 1).2
        = Except.ok out :=
  ⟨_, C2_single_batch_application (fun w => [(w.headD []).getD 0 0 + 1])
    (TrajInput.nd2 []) 1 none [[0], [1], [5]] (by decide)⟩

/-- C3: `fit(data, lamb)` builds the Hankel contexts of the data (using the
stored data when the argument is `None`), sets `tikhonov_reg` to `lamb`
when given and otherwise to the `self.lamb` value stored by `__init__`,
performs all regression through the single inherited `NystroemKernel.fit`
call on those contexts (which yields `U`, `V`, `kernel_YX`), and the only
quantity it computes itself afterwards is
`A_v = V.T @ kernel_YX @ U / len(kernel_YX)`. -/
theorem C3_fit_delegates_to_library {α : Type u} [Inhabited α]
    (nysFit : List (List (List α)) → Mat × Mat × Mat) (st : KState α)
    (d : TrajInput α) (lambArg : Option ℚ) (c : List (List (List α)))
    (hv : validTrajs st.context_window_len st.delay_interval (asTrajList d))
    (hc : compute_hankelFn st.context_window_len st.delay_interval d = some c) :
    fit nysFit st (some d) lambArg
      = some { st with
          data := HankelData.ctxs c
          tikhonov_reg := some (lambArg.getD st.lamb)
          U := (nysFit c).1
          V := (nysFit c).2.1
          kernel_YX := (nysFit c).2.2
          A_v := matScalarDiv
            (matMul (matMul (nysFit c).2.1.transpose (nysFit c).2.2)
              (nysFit c).1)
            ((nysFit c).2.2.length : ℚ) }
    ∧ (st.data = HankelData.raw d →
        fit nysFit st none lambArg = fit nysFit st (some d) lambArg) := by
  constructor
  · cases lambArg <;>
      simp [fit, compute_hankel, hc, compute_kernel_dmd, Option.getD]
  · intro h
    simp only [fit, h]

/-- Witness for C3: a concrete fit with an explicit library stub. -/
theorem C3_fit_delegates_to_library_witness :
    ∃ res : KState ℤ,
      fit (fun _ => ([[1]], [[2]], [[3]]))
        (initKernelDMD (TrajInput.nd2 [[(0 : ℤ)], [1], [2]]) 1 1 none)
        (some (TrajInput.nd2 [[0], [1], [2]])) (some 5) = some res :=
  ⟨_, (C3_fit_delegates_to_library (fun _ => ([[1]], [[2]], [[3]]))
    (initKernelDMD (TrajInput.nd2 [[(0 : ℤ)], [1], [2]]) 1 1 none)
    (TrajInput.nd2 [[0], [1], [2]]) (some 5) [[[0], [1]], [[1], [2]]]
    (by decide) (by decide)).1⟩

/-- C7 (code bug): the docstring of `predict` promises an output of the
same shape as `test_data`, but line 158 returns `pred_data.squeeze()`,
which drops every axis of length 1.  On the 3-D test input of shape
(1, 3, 2) below (`n_delays = 1`, `delay_interval = 1`, operator returning
the first sample of each window), `predict` succeeds and returns an array
of shape (3, 2) instead of (1, 3, 2). -/
theorem C7_predict_shape_bug :
    ndShape (toND3 [[[(0 : ℤ), 0], [1, 1], [2, 2]]]) = [1, 3, 2]
    ∧ ∃ out,
        (predict (fun cs => cs.map (fun w => w.getD 0 []))
            (initKernelDMD (TrajInput.nd2 ([] : List (List ℤ))) 1 1 none)
            (PredInput.nd3 [[[0, 0], [1, 1], [2, 2]]]) none).2
          = Except.ok out
        ∧ ndShape out = [3, 2] :=
  ⟨rfl, _, rfl, rfl⟩

/-- C8 (code bug): the docstring of `predict` promises that the first
`(n_delays - 1) * delay_interval + 1` time steps of the returned
predictions equal the test data, but line 149 copies only `n_delays` steps
and, for every `delay_interval > 1`, the reshape at line 155 fails
outright: each trajectory yields `T - n_delays * delay_interval` contexts
while the reshape expects `T - n_delays` rows per trajectory.  With
`n_delays = 2`, `delay_interval = 2` and a 5-step trajectory, `predict`
raises `ValueError` and returns no predictions at all. -/
theorem C8_prefix_promise_bug :
    (predict (fun cs => cs.map (fun w => w.getD 0 []))
        (initKernelDMD (TrajInput.nd2 ([] : List (List ℤ))) 2 2 none)
        (PredInput.nd2 [[0], [1], [2], [3], [4]]) none).2
      = Except.error PredErr.valueError := rfl

/-- C9: `predict` is not read-only on the model state: whenever it returns,
`self.data` has been overwritten (line 152) with the delay-embedded
contexts of the test data, while the fitted quantities `U`, `V`,
`kernel_YX`, `A_v` and the regularisation are left unchanged. -/
theorem C9_predict_overwrites_data {α : Type u} [Inhabited α]
    (P : List (List (List α)) → List (List α)) (st : KState α)
    (td : PredInput α)
    (hv : validTrajs st.context_window_len st.delay_interval (asTestArray td))
    (h : (predict P st td none).2.isOk = true) :
    ∃ c, compute_hankelFn st.context_window_len st.delay_interval
          (TrajInput.nd3 (asTestArray td)) = some c
      ∧ (predict P st td none).1.data = HankelData.ctxs c
      ∧ (predict P st td none).1.U = st.U
      ∧ (predict P st td none).1.V = st.V
      ∧ (predict P st td none).1.kernel_YX = st.kernel_YX
      ∧ (predict P st td none).1.A_v = st.A_v
      ∧ (predict P st td none).1.tikhonov_reg = st.tikhonov_reg := by
  cases hmatch : compute_hankelFn st.context_window_len st.delay_interval
      (TrajInput.nd3 (asTestArray td)) with
  | none =>
    exfalso
    have herr : (predict P st td none).2 = Except.error PredErr.indexError := by
      show (predictBody P st (asTestArray td) 1).2 = _
      unfold predictBody predictRaw
      rw [hmatch]
      rfl
    rw [herr] at h
    exact Bool.noConfusion h
  | some c =>
    have hst : (predict P st td none).1
        = { st with data := HankelData.ctxs c } := by
      show (predictBody P st (asTestArray td) 1).1 = _
      unfold predictBody predictRaw
      rw [hmatch]
    exact ⟨c, rfl, by rw [hst], by rw [hst], by rw [hst], by rw [hst],
      by rw [hst], by rw [hst]⟩

/-- Witness for C9: a concrete successful `predict` run overwrites
`self.data` with the contexts of the test trajectory. -/
theorem C9_predict_overwrites_data_witness :
    ∃ c, compute_hankelFn 2 1
          (TrajInput.nd3 (asTestArray (PredInput.nd2 [[(0 : ℤ)], [1], [2]])))
          = some c
      ∧ (predict (fun cs : List (List (List ℤ)) => cs.map (fun w => w.getD 0 []))
          (initKernelDMD (TrajInput.nd2 ([] : List (List ℤ))) 1 1 none)
          (PredInput.nd2 [[0], [1], [2]]) none).1.data = HankelData.ctxs c := by
  obtain ⟨c, h1, h2, _⟩ := C9_predict_overwrites_data
    (fun cs : List (List (List ℤ)) => cs.map (fun w => w.getD 0 []))
    (initKernelDMD (TrajInput.nd2 ([] : List (List ℤ))) 1 1 none)
    (PredInput.nd2 [[0], [1], [2]])
    (by decide) (by decide)
  exact ⟨c, h1, h2⟩

end DSA
